import Mathlib

/-!
Verification of the HRMS Lite backend.

The repository ships two implementations of the same HR domain:
a FastAPI handler module backed by raw SQLite (main.py), and a Django
REST framework app (api/models.py, api/serializers.py, api/views.py).
Both operate on the two-table schema created by `init_db` in main.py and
mirrored by the Django models: an `employees` table keyed by
`employee_id` and an `attendance` table with an AUTOINCREMENT surrogate
`id` and a `UNIQUE(employee_id, date)` constraint.

This file embeds both variants shallowly: the relational store becomes an
explicit `DB` value, each endpoint handler becomes a pure function from
the store (plus the request fields and an injected clock reading) to an
`Except` of the HTTP error status or the success payload, and the SQL /
ORM queries become list operations.  Dates are abstracted as day numbers:
valid ISO `YYYY-MM-DD` strings compare lexicographically exactly as their
dates compare chronologically, so SQLite's TEXT comparisons on the `date`
column coincide with the numeric order used here.  Timestamps
(`datetime.now().isoformat()` / Django `auto_now_add`) are likewise
abstracted as tick counts supplied by the caller.
-/

/-- Calendar date as a day number (see the header comment). -/
abbrev Date := Nat

/-- Wall-clock timestamp, abstracted as a tick count. -/
abbrev Timestamp := Nat

/-- The closed status set: `AttendanceStatus` in main.py,
`Attendance.STATUS_CHOICES` in api/models.py. -/
inductive AttendanceStatus where
  | Present
  | Absent
deriving DecidableEq, Repr

/-- Row of the `employees` table. -/
structure Employee where
  employee_id : String
  full_name : String
  email : String
  department : String
  created_at : Timestamp
deriving DecidableEq, Repr

/-- Row of the `attendance` table. -/
structure Attendance where
  id : Nat
  employee_id : String
  date : Date
  status : AttendanceStatus
  created_at : Timestamp
deriving DecidableEq, Repr

/-- The relational store shared by both variants. `next_id` models the
AUTOINCREMENT counter behind `attendance.id` (strictly increasing,
starting at 1). -/
structure DB where
  employees : List Employee
  attendance : List Attendance
  next_id : Nat
deriving DecidableEq, Repr

/-- The store right after `init_db`: both tables empty. -/
def emptyDB : DB := ⟨[], [], 1⟩

/-- Existence check
`SELECT employee_id FROM employees WHERE employee_id = ?` used by the
employee-guard of several handlers, and `Employee.objects.get` on the
Django side. -/
def employeeExists (db : DB) (eid : String) : Bool :=
  db.employees.any (fun e => e.employee_id == eid)

/-- Match on the `UNIQUE(employee_id, date)` key of the attendance table. -/
def sameKey (eid : String) (d : Date) (a : Attendance) : Bool :=
  a.employee_id == eid && a.date == d

/-- Pydantic validator `AttendanceCreate.validate_date` in main.py:
`if v > date.today(): raise ValueError(...)`.  Character-identical logic in
`AttendanceSerializer.validate_date` in api/serializers.py. -/
def validate_date (v today : Date) : Except String Date :=
  if today < v then .error "Cannot mark attendance for future dates" else .ok v

/-- POST /api/employees handler (`create_employee` in main.py), after the
pydantic field validation; the error value is the HTTP status code.  The
handler rejects a duplicate `employee_id` and a duplicate `email` with
400, then inserts the new row with `created_at = datetime.now()`. -/
def create_employee (db : DB) (eid full_name email department : String)
    (now : Timestamp) : Except Nat (DB × Employee) :=
  if db.employees.any (fun e => e.employee_id == eid) then .error 400
  else if db.employees.any (fun e => e.email == email) then .error 400
  else
    let emp : Employee := ⟨eid, full_name, email, department, now⟩
    .ok ({ db with employees := db.employees ++ [emp] }, emp)

/-- GET /api/employees/{employee_id} handler (`get_employee` in main.py):
404 when no row matches. -/
def get_employee (db : DB) (eid : String) : Except Nat Employee :=
  match db.employees.find? (fun e => e.employee_id == eid) with
  | none => .error 404
  | some e => .ok e

/-- DELETE /api/employees/{employee_id} handler (`delete_employee` in
main.py): 404 when the employee is absent; otherwise it deletes the
employee's attendance rows and then the employee row.  Both DELETEs run
inside the single transaction opened by `get_db`, which commits on
success and rolls back wholesale on any exception, so the pair is atomic;
in this pure embedding the new store is returned only as a whole. -/
def delete_employee (db : DB) (eid : String) : Except Nat DB :=
  if employeeExists db eid = false then .error 404
  else .ok { db with
    attendance := db.attendance.filter (fun a => !(a.employee_id == eid)),
    employees := db.employees.filter (fun e => !(e.employee_id == eid)) }

/-- The statement `UPDATE attendance SET status = ?, created_at = ? WHERE
employee_id = ? AND date = ?` of the IntegrityError branch of
`mark_attendance` in main.py: every row with the key gets the new status
and timestamp. -/
def update_attendance_rows (l : List Attendance) (eid : String) (d : Date)
    (st : AttendanceStatus) (now : Timestamp) : List Attendance :=
  l.map fun b =>
    if sameKey eid d b then { b with status := st, created_at := now } else b

/-- POST /api/attendance handler (`mark_attendance` in main.py).  After the
employee-existence guard (404), the handler INSERTs a fresh row with
`created_at = now`; when the INSERT hits `UNIQUE(employee_id, date)` the
`IntegrityError` branch runs `update_attendance_rows` and re-SELECTs the
surviving row's `id` for the response, which is otherwise built from the
request fields. -/
def mark_attendance (db : DB) (eid : String) (d : Date)
    (st : AttendanceStatus) (now : Timestamp) : Except Nat (DB × Attendance) :=
  if employeeExists db eid = false then .error 404
  else if db.attendance.any (sameKey eid d) = false then
    .ok ({ db with
           attendance := db.attendance ++ [⟨db.next_id, eid, d, st, now⟩],
           next_id := db.next_id + 1 }, ⟨db.next_id, eid, d, st, now⟩)
  else
    match (update_attendance_rows db.attendance eid d st now).find?
        (sameKey eid d) with
    | some a => .ok ({ db with
        attendance := update_attendance_rows db.attendance eid d st now },
        ⟨a.id, eid, d, st, now⟩)
    | none => .error 500

/-- The write performed by the update path of
`Attendance.objects.update_or_create`: the fetched row is saved with the
new `status`; `created_at` is `auto_now_add` and therefore untouched. -/
def orm_update_status (l : List Attendance) (eid : String) (d : Date)
    (st : AttendanceStatus) : List Attendance :=
  l.map fun b => if sameKey eid d b then { b with status := st } else b

/-- POST /api/attendance in the Django variant:
`AttendanceSerializer.validate_employee_id` raises a field
`ValidationError` when the employee is absent, which DRF answers with
HTTP 400 (not 404); then `AttendanceSerializer.create` runs
`Attendance.objects.update_or_create(employee=..., date=...,
defaults={'status': ...})`.  The embedded `get` of `update_or_create`
raises `MultipleObjectsReturned` (a 500) if several rows share the key —
impossible while the uniqueness constraint holds.  On the update path only
`status` is written: `created_at` is declared `auto_now_add=True`, so it is
set once when the row is first created and is never refreshed by later
saves. -/
def attendance_serializer_create (db : DB) (eid : String) (d : Date)
    (st : AttendanceStatus) (now : Timestamp) : Except Nat (DB × Attendance) :=
  if employeeExists db eid = false then .error 400
  else if 2 ≤ db.attendance.countP (sameKey eid d) then .error 500
  else
    match db.attendance.find? (sameKey eid d) with
    | none =>
      .ok ({ db with
             attendance := db.attendance ++ [⟨db.next_id, eid, d, st, now⟩],
             next_id := db.next_id + 1 }, ⟨db.next_id, eid, d, st, now⟩)
    | some a =>
      .ok ({ db with attendance := orm_update_status db.attendance eid d st },
           { a with status := st })

/-- Python truthiness of the optional `employee_id` query parameter in
`get_attendance`: `if employee_id:` skips the filter both for a missing
parameter (None) and for the empty string. -/
def truthy : Option String → Bool
  | none => false
  | some s => !(s == "")

/-- The line `specific_date = on_date or date` in `get_attendance`
(main.py), and equally `query_params.get('on_date') or
query_params.get('date')` in `AttendanceViewSet.get_queryset`: a parsed
date value is always truthy, so `on_date` wins whenever it is present. -/
def specific_date (on_date date : Option Date) : Option Date :=
  match on_date with
  | some d => some d
  | none => date

/-- The WHERE clause assembled by `get_attendance` in main.py: each
supplied criterion appends one conjunct (`employee_id` equality under
truthiness, exact date from `specific_date`, and the two inclusive range
bounds). -/
def attendance_where (employee_id : Option String)
    (date on_date start_date end_date : Option Date) (a : Attendance) : Bool :=
  (match employee_id with
   | some s => if s == "" then true else a.employee_id == s
   | none => true) &&
  (match specific_date on_date date with
   | some d => a.date == d
   | none => true) &&
  (match start_date with
   | some d => decide (d ≤ a.date)
   | none => true) &&
  (match end_date with
   | some d => decide (a.date ≤ d)
   | none => true)

/-- ORDER BY `a.date DESC, a.employee_id` in main.py, and
`ordering = ['-date', 'employee']` in the Django model Meta. -/
def attendance_order (a b : Attendance) : Prop :=
  b.date < a.date ∨ (a.date = b.date ∧ a.employee_id ≤ b.employee_id)

instance : DecidableRel attendance_order := fun a b => by
  unfold attendance_order; infer_instance

instance : IsTotal Attendance attendance_order := ⟨by
  intro a b
  rcases Nat.lt_trichotomy a.date b.date with h | h | h
  · exact Or.inr (Or.inl h)
  · rcases le_total a.employee_id b.employee_id with h2 | h2
    · exact Or.inl (Or.inr ⟨h, h2⟩)
    · exact Or.inr (Or.inr ⟨h.symm, h2⟩)
  · exact Or.inl (Or.inl h)⟩

instance : IsTrans Attendance attendance_order := ⟨by
  intro a b c hab hbc
  rcases hab with h1 | h1 <;> rcases hbc with h2 | h2
  · exact Or.inl (h2.trans h1)
  · exact Or.inl (h2.1 ▸ h1)
  · exact Or.inl (h1.1.symm ▸ h2)
  · exact Or.inr ⟨h1.1.trans h2.1, le_trans h1.2 h2.2⟩⟩

/-- Row shape returned by GET /api/attendance: the attendance columns plus
the LEFT-JOINed owning employee's name and department. -/
structure AttendanceRow where
  id : Nat
  employee_id : String
  date : Date
  status : AttendanceStatus
  created_at : Timestamp
  employee_name : Option String
  employee_department : Option String
deriving DecidableEq, Repr

/-- LEFT JOIN `employees e ON a.employee_id = e.employee_id`, projecting
the columns of the response. -/
def enrich (db : DB) (a : Attendance) : AttendanceRow :=
  let e := db.employees.find? (fun e => e.employee_id == a.employee_id)
  ⟨a.id, a.employee_id, a.date, a.status, a.created_at,
   e.map (fun x => x.full_name), e.map (fun x => x.department)⟩

/-- The attendance columns of a response row. -/
def AttendanceRow.toAttendance (row : AttendanceRow) : Attendance :=
  ⟨row.id, row.employee_id, row.date, row.status, row.created_at⟩

/-- The ORDER BY clause read off a response row (it only involves the
attendance columns). -/
def attendance_row_order (x y : AttendanceRow) : Prop :=
  y.date < x.date ∨ (x.date = y.date ∧ x.employee_id ≤ y.employee_id)

/-- GET /api/attendance handler (`get_attendance` in main.py): the rows of
the joined relation satisfying the assembled WHERE clause, in the ORDER BY
order. -/
def get_attendance (db : DB) (employee_id : Option String)
    (date on_date start_date end_date : Option Date) : List AttendanceRow :=
  ((db.attendance.filter
      (attendance_where employee_id date on_date start_date end_date)).insertionSort
    attendance_order).map (enrich db)

/-- Body of GET /api/attendance/employee/{employee_id}/summary. -/
structure AttendanceSummary where
  employee_id : String
  employee_name : String
  total_days : Nat
  present_days : Nat
  absent_days : Nat
deriving DecidableEq, Repr

/-- GET /api/attendance/employee/{employee_id}/summary handler
(`get_employee_attendance_summary` in main.py): 404 when the employee is
absent, else `COUNT(*)` and the two `SUM(CASE WHEN status = ... THEN 1
ELSE 0 END)` aggregates over the employee's rows; with no rows the SUMs
are NULL and the `or 0` in the handler turns them into 0, which is what
`List.countP` of the empty list gives directly. -/
def get_employee_attendance_summary (db : DB) (eid : String) :
    Except Nat AttendanceSummary :=
  match db.employees.find? (fun e => e.employee_id == eid) with
  | none => .error 404
  | some emp =>
    let owned := db.attendance.filter (fun a => a.employee_id == eid)
    .ok ⟨eid, emp.full_name, owned.length,
         owned.countP (fun a => decide (a.status = .Present)),
         owned.countP (fun a => decide (a.status = .Absent))⟩

/-- Body of GET /api/dashboard/stats. -/
structure DashboardStats where
  total_employees : Nat
  total_attendance_records : Nat
  present_today : Nat
  absent_today : Nat
deriving DecidableEq, Repr

/-- GET /api/dashboard/stats handler (`get_dashboard_stats` in main.py):
four independent COUNT queries, the last two restricted to `date.today()`
passed here as `today`. -/
def get_dashboard_stats (db : DB) (today : Date) : DashboardStats :=
  ⟨db.employees.length,
   db.attendance.length,
   db.attendance.countP (fun a => a.date == today && decide (a.status = .Present)),
   db.attendance.countP (fun a => a.date == today && decide (a.status = .Absent))⟩

/-- Final state of a request against the transactional `get_db` context
manager: the new state on success, the untouched previous state when the
handler raised (rollback). -/
def outcome {α : Type} (db : DB) (r : Except Nat (DB × α)) : DB :=
  match r with
  | .ok (db', _) => db'
  | .error _ => db

/-- Rollback semantics of `delete_employee`, whose payload is the bare
store. -/
def outcomeDel (db : DB) (r : Except Nat DB) : DB :=
  match r with
  | .ok db' => db'
  | .error _ => db

/-- States reachable from the fresh schema by any sequence of the
state-changing API operations of either variant.  The read endpoints
(`get_employees`, `get_employee`, `get_attendance`, the summary and the
dashboard) are pure functions of the store and appear in this file as
such, so they change no state by construction. -/
inductive Reachable : DB → Prop where
  | init : Reachable emptyDB
  | create (db : DB) (eid full_name email department : String) (now : Timestamp) :
      Reachable db →
      Reachable (outcome db (create_employee db eid full_name email department now))
  | upsert (db : DB) (eid : String) (d : Date) (st : AttendanceStatus)
      (now : Timestamp) : Reachable db →
      Reachable (outcome db (mark_attendance db eid d st now))
  | orm_upsert (db : DB) (eid : String) (d : Date) (st : AttendanceStatus)
      (now : Timestamp) : Reachable db →
      Reachable (outcome db (attendance_serializer_create db eid d st now))
  | delete (db : DB) (eid : String) : Reachable db →
      Reachable (outcomeDel db (delete_employee db eid))

/-- The defining uniqueness constraint `UNIQUE(employee_id, date)` /
`unique_together = ['employee', 'date']`: no two distinct positions of the
attendance table share the key. -/
def UniquePairs (db : DB) : Prop :=
  db.attendance.Pairwise
    (fun a b => ¬(a.employee_id = b.employee_id ∧ a.date = b.date))

/-- Forgetting a timestamp. -/
def Attendance.scrub (a : Attendance) : Attendance := { a with created_at := 0 }

/-- Forgetting the attendance timestamps of a store, to compare the two
variants up to their `created_at` handling. -/
def DB.scrub (db : DB) : DB :=
  { db with attendance := db.attendance.map Attendance.scrub }

/-- A record satisfying the conjunction of the supplied listing criteria,
written out as plain propositions: exact employee match, exact date match
(on the effective specific date), and the two inclusive range bounds.
Used to state what the assembled WHERE clause means. -/
def MatchesCriteria (employee_id : Option String)
    (exact_date start_date end_date : Option Date) (a : Attendance) : Prop :=
  (∀ s, employee_id = some s → a.employee_id = s) ∧
  (∀ e, exact_date = some e → a.date = e) ∧
  (∀ e, start_date = some e → e ≤ a.date) ∧
  (∀ e, end_date = some e → a.date ≤ e)

/-- A concrete store holding one employee and no attendance, as produced by
one successful POST /api/employees against the fresh schema. -/
def db_one_emp : DB :=
  ⟨[⟨"E1", "Ann", "ann@x.com", "Eng", 0⟩], [], 1⟩

/-- A concrete store exercising the listing: one employee owning rows on
two dates. -/
def db_att : DB :=
  ⟨[⟨"E1", "Ann", "ann@x.com", "Eng", 0⟩],
   [⟨1, "E1", 5, .Present, 0⟩, ⟨2, "E1", 6, .Absent, 0⟩], 3⟩

/-- A concrete store for the dashboard scenario: 3 employees, 3 attendance
rows dated 10 (2 Present, 1 Absent) and 5 rows on earlier dates. -/
def db_dash : DB :=
  ⟨[⟨"E1", "Ann", "ann@x.com", "Eng", 0⟩,
    ⟨"E2", "Bob", "bob@x.com", "Ops", 0⟩,
    ⟨"E3", "Cal", "cal@x.com", "HR", 0⟩],
   [⟨1, "E1", 10, .Present, 0⟩, ⟨2, "E2", 10, .Present, 0⟩,
    ⟨3, "E3", 10, .Absent, 0⟩, ⟨4, "E1", 9, .Present, 0⟩,
    ⟨5, "E2", 9, .Absent, 0⟩, ⟨6, "E3", 9, .Present, 0⟩,
    ⟨7, "E1", 8, .Present, 0⟩, ⟨8, "E2", 8, .Absent, 0⟩], 9⟩

/-- The store after the ORM variant upserts (employee E1, day 5) twice on
`db_one_emp`: first Present at time 10, then Absent at time 20. -/
def ormTwice : DB :=
  outcome (outcome db_one_emp (attendance_serializer_create db_one_emp "E1" 5 .Present 10))
    (attendance_serializer_create
      (outcome db_one_emp (attendance_serializer_create db_one_emp "E1" 5 .Present 10))
      "E1" 5 .Absent 20)

/-! ### Facts about the unique key and the two update maps -/

theorem sameKey_iff (eid : String) (d : Date) (a : Attendance) :
    sameKey eid d a = true ↔ a.employee_id = eid ∧ a.date = d := by
  simp [sameKey]

theorem sameKey_upd_full (eid : String) (d : Date) (st : AttendanceStatus)
    (now : Timestamp) (k : String) (e : Date) (b : Attendance) :
    sameKey k e
      (if sameKey eid d b then { b with status := st, created_at := now } else b)
      = sameKey k e b := by
  unfold sameKey; split <;> rfl

theorem sameKey_upd_status (eid : String) (d : Date) (st : AttendanceStatus)
    (k : String) (e : Date) (b : Attendance) :
    sameKey k e (if sameKey eid d b then { b with status := st } else b)
      = sameKey k e b := by
  unfold sameKey; split <;> rfl

theorem uniquePairs_map_of_fields {l : List Attendance} {f : Attendance → Attendance}
    (hf : ∀ b, (f b).employee_id = b.employee_id ∧ (f b).date = b.date)
    (h : l.Pairwise fun a b => ¬(a.employee_id = b.employee_id ∧ a.date = b.date)) :
    (l.map f).Pairwise
      fun a b => ¬(a.employee_id = b.employee_id ∧ a.date = b.date) := by
  refine h.map f ?_
  intro a b hab hc
  refine hab ⟨?_, ?_⟩
  · exact ((hf a).1.symm.trans hc.1).trans (hf b).1
  · exact ((hf a).2.symm.trans hc.2).trans (hf b).2

theorem countP_sameKey_le_one {l : List Attendance} (eid : String) (d : Date)
    (h : l.Pairwise fun a b => ¬(a.employee_id = b.employee_id ∧ a.date = b.date)) :
    l.countP (sameKey eid d) ≤ 1 := by
  induction l with
  | nil => simp
  | cons a t ih =>
    rcases List.pairwise_cons.mp h with ⟨ha, ht⟩
    rw [List.countP_cons]
    by_cases hk : sameKey eid d a = true
    · have h0 : t.countP (sameKey eid d) = 0 := by
        rw [List.countP_eq_zero]
        intro b hb hkb
        rcases (sameKey_iff eid d a).mp hk with ⟨h1, h2⟩
        rcases (sameKey_iff eid d b).mp hkb with ⟨h3, h4⟩
        exact ha b hb ⟨h1.trans h3.symm, h2.trans h4.symm⟩
      simp [hk, h0]
    · simpa [hk] using ih ht

theorem sameKey_unique {l : List Attendance} (eid : String) (d : Date)
    (h : l.Pairwise fun a b => ¬(a.employee_id = b.employee_id ∧ a.date = b.date))
    {a b : Attendance} (ha : a ∈ l) (hb : b ∈ l)
    (hka : sameKey eid d a = true) (hkb : sameKey eid d b = true) : a = b := by
  by_contra hne
  have hsym : Symmetric
      fun a b : Attendance => ¬(a.employee_id = b.employee_id ∧ a.date = b.date) :=
    fun x y hxy hc => hxy ⟨hc.1.symm, hc.2.symm⟩
  rcases (sameKey_iff eid d a).mp hka with ⟨h1, h2⟩
  rcases (sameKey_iff eid d b).mp hkb with ⟨h3, h4⟩
  exact List.Pairwise.forall hsym h ha hb hne ⟨h1.trans h3.symm, h2.trans h4.symm⟩


/-! ### Success shape of the two upserts -/

theorem update_rows_fields (eid : String) (d : Date) (st : AttendanceStatus)
    (now : Timestamp) (b : Attendance) :
    ((if sameKey eid d b then { b with status := st, created_at := now }
        else b) : Attendance).employee_id = b.employee_id ∧
    ((if sameKey eid d b then { b with status := st, created_at := now }
        else b) : Attendance).date = b.date ∧
    ((if sameKey eid d b then { b with status := st, created_at := now }
        else b) : Attendance).id = b.id := by
  split <;> exact ⟨rfl, rfl, rfl⟩

theorem orm_update_fields (eid : String) (d : Date) (st : AttendanceStatus)
    (b : Attendance) :
    ((if sameKey eid d b then { b with status := st } else b) :
        Attendance).employee_id = b.employee_id ∧
    ((if sameKey eid d b then { b with status := st } else b) :
        Attendance).date = b.date ∧
    ((if sameKey eid d b then { b with status := st } else b) :
        Attendance).id = b.id ∧
    ((if sameKey eid d b then { b with status := st } else b) :
        Attendance).created_at = b.created_at := by
  split <;> exact ⟨rfl, rfl, rfl, rfl⟩

theorem mark_attendance_ok (db : DB) (eid : String) (d : Date)
    (st : AttendanceStatus) (now : Timestamp) (db' : DB) (r : Attendance)
    (hinv : UniquePairs db)
    (h : mark_attendance db eid d st now = .ok (db', r)) :
    db'.employees = db.employees ∧
    r.employee_id = eid ∧ r.date = d ∧ r.status = st ∧ r.created_at = now ∧
    db'.attendance.countP (sameKey eid d) = 1 ∧
    (∀ a ∈ db'.attendance, sameKey eid d a = true → a = r) ∧
    (∀ b ∈ db.attendance, sameKey eid d b = true → r.id = b.id) ∧
    UniquePairs db' := by
  unfold mark_attendance at h
  split at h
  · exact absurd h (by simp)
  · split at h
    · -- insert path
      rename_i hemp hkey
      simp only [Except.ok.injEq, Prod.mk.injEq] at h
      obtain ⟨hdb, hr⟩ := h
      subst hdb; subst hr
      have hnone : ∀ b ∈ db.attendance, ¬ sameKey eid d b = true :=
        List.any_eq_false.mp hkey
      refine ⟨rfl, rfl, rfl, rfl, rfl, ?_, ?_, ?_, ?_⟩
      · rw [List.countP_append, List.countP_eq_zero.mpr hnone]
        simp [sameKey]
      · intro a ha hk
        rcases List.mem_append.mp ha with ha' | ha'
        · exact absurd hk (hnone a ha')
        · simpa using ha'
      · intro b hb hk
        exact absurd hk (hnone b hb)
      · unfold UniquePairs at hinv ⊢
        rw [List.pairwise_append]
        refine ⟨hinv, by simp, ?_⟩
        intro a ha b hb hc
        rcases List.mem_singleton.mp hb with rfl
        exact hnone a ha ((sameKey_iff eid d a).mpr ⟨hc.1, hc.2⟩)
    · -- update path
      rename_i hemp hkey
      have hany : db.attendance.any (sameKey eid d) = true := by
        revert hkey; cases db.attendance.any (sameKey eid d) <;> simp
      have hkeymap : ∀ b : Attendance,
          sameKey eid d
            (if sameKey eid d b then { b with status := st, created_at := now }
              else b) = sameKey eid d b :=
        fun b => sameKey_upd_full eid d st now eid d b
      have hmapinv :
          (update_attendance_rows db.attendance eid d st now).Pairwise
            (fun a b => ¬(a.employee_id = b.employee_id ∧ a.date = b.date)) :=
        uniquePairs_map_of_fields
          (fun b => ⟨(update_rows_fields eid d st now b).1,
                     (update_rows_fields eid d st now b).2.1⟩) hinv
      split at h
      · -- SELECT found the surviving row
        rename_i a hfind
        simp only [Except.ok.injEq, Prod.mk.injEq] at h
        obtain ⟨hdb, hr⟩ := h
        subst hdb; subst hr
        have hka : sameKey eid d a = true := List.find?_some hfind
        have hamem : a ∈ update_attendance_rows db.attendance eid d st now :=
          List.mem_of_find?_eq_some hfind
        obtain ⟨b0, hb0, hab0⟩ :=
          List.mem_map.mp (by simpa [update_attendance_rows] using hamem)
        have hkb0 : sameKey eid d b0 = true := by
          rw [← hkeymap b0, hab0]; exact hka
        have ha_eq : a = { b0 with status := st, created_at := now } := by
          rw [← hab0, if_pos hkb0]
        rcases (sameKey_iff eid d b0).mp hkb0 with ⟨hb0e, hb0d⟩
        have hr_eq : (⟨a.id, eid, d, st, now⟩ : Attendance) = a := by
          rw [ha_eq]
          simp [hb0e, hb0d]
        have hcount :
            (update_attendance_rows db.attendance eid d st now).countP
              (sameKey eid d) = 1 := by
          unfold update_attendance_rows
          rw [List.countP_map]
          have heq : db.attendance.countP
                ((sameKey eid d) ∘ fun b =>
                  if sameKey eid d b then { b with status := st, created_at := now }
                  else b)
              = db.attendance.countP (sameKey eid d) :=
            List.countP_congr (fun x _ => by simp [Function.comp, hkeymap x])
          rw [heq]
          have hpos : 0 < db.attendance.countP (sameKey eid d) :=
            List.countP_pos_iff.mpr (List.any_eq_true.mp hany)
          have hle : db.attendance.countP (sameKey eid d) ≤ 1 :=
            countP_sameKey_le_one eid d hinv
          omega
        refine ⟨rfl, rfl, rfl, rfl, rfl, hcount, ?_, ?_, hmapinv⟩
        · intro x hx hkx
          have hxa : x = a := sameKey_unique eid d hmapinv hx hamem hkx hka
          rw [hxa, ← hr_eq]
        · intro b hb hkb
          have hbb0 : b = b0 := sameKey_unique eid d hinv hb hb0 hkb hkb0
          have hid : a.id = b0.id := by rw [ha_eq]
          rw [hbb0]
          exact hid
      · exact absurd h (by simp)

theorem serializer_create_ok (db : DB) (eid : String) (d : Date)
    (st : AttendanceStatus) (now : Timestamp) (db' : DB) (r : Attendance)
    (hinv : UniquePairs db)
    (h : attendance_serializer_create db eid d st now = .ok (db', r)) :
    db'.employees = db.employees ∧
    r.employee_id = eid ∧ r.date = d ∧ r.status = st ∧
    db'.attendance.countP (sameKey eid d) = 1 ∧
    (∀ a ∈ db'.attendance, sameKey eid d a = true → a = r) ∧
    (∀ b ∈ db.attendance, sameKey eid d b = true →
        r.id = b.id ∧ r.created_at = b.created_at) ∧
    (db.attendance.any (sameKey eid d) = false → r.created_at = now) ∧
    UniquePairs db' := by
  unfold attendance_serializer_create at h
  split at h
  · exact absurd h (by simp)
  · split at h
    · exact absurd h (by simp)
    · split at h
      · -- no existing row: create
        rename_i hemp hcnt hfind
        simp only [Except.ok.injEq, Prod.mk.injEq] at h
        obtain ⟨hdb, hr⟩ := h
        subst hdb; subst hr
        have hnone : ∀ b ∈ db.attendance, ¬ sameKey eid d b = true :=
          List.find?_eq_none.mp hfind
        refine ⟨rfl, rfl, rfl, rfl, ?_, ?_, ?_, fun _ => rfl, ?_⟩
        · rw [List.countP_append, List.countP_eq_zero.mpr hnone]
          simp [sameKey]
        · intro a ha hk
          rcases List.mem_append.mp ha with ha' | ha'
          · exact absurd hk (hnone a ha')
          · simpa using ha'
        · intro b hb hk
          exact absurd hk (hnone b hb)
        · unfold UniquePairs at hinv ⊢
          rw [List.pairwise_append]
          refine ⟨hinv, by simp, ?_⟩
          intro a ha b hb hc
          rcases List.mem_singleton.mp hb with rfl
          exact hnone a ha ((sameKey_iff eid d a).mpr ⟨hc.1, hc.2⟩)
      · -- an existing row: update in place
        rename_i hemp hcnt a hfind
        simp only [Except.ok.injEq, Prod.mk.injEq] at h
        obtain ⟨hdb, hr⟩ := h
        subst hdb; subst hr
        have hka : sameKey eid d a = true := List.find?_some hfind
        have hamem : a ∈ db.attendance := List.mem_of_find?_eq_some hfind
        have hkeymap : ∀ b : Attendance,
            sameKey eid d (if sameKey eid d b then { b with status := st } else b)
              = sameKey eid d b :=
          fun b => sameKey_upd_status eid d st eid d b
        have hmapinv :
            (orm_update_status db.attendance eid d st).Pairwise
              (fun a b => ¬(a.employee_id = b.employee_id ∧ a.date = b.date)) :=
          uniquePairs_map_of_fields
            (fun b => ⟨(orm_update_fields eid d st b).1,
                       (orm_update_fields eid d st b).2.1⟩) hinv
        have hcount :
            (orm_update_status db.attendance eid d st).countP (sameKey eid d)
              = 1 := by
          unfold orm_update_status
          rw [List.countP_map]
          have heq : db.attendance.countP
                ((sameKey eid d) ∘ fun b =>
                  if sameKey eid d b then { b with status := st } else b)
              = db.attendance.countP (sameKey eid d) :=
            List.countP_congr (fun x _ => by simp [Function.comp, hkeymap x])
          rw [heq]
          have hpos : 0 < db.attendance.countP (sameKey eid d) :=
            List.countP_pos_iff.mpr ⟨a, hamem, hka⟩
          have hle : db.attendance.countP (sameKey eid d) ≤ 1 :=
            countP_sameKey_le_one eid d hinv
          omega
        rcases (sameKey_iff eid d a).mp hka with ⟨hae, had⟩
        refine ⟨rfl, hae, had, rfl, hcount, ?_, ?_, ?_, hmapinv⟩
        · intro x hx hkx
          obtain ⟨b0, hb0, hxb0⟩ :=
            List.mem_map.mp (by simpa [orm_update_status] using hx)
          have hkb0 : sameKey eid d b0 = true := by
            rw [← hkeymap b0, hxb0]; exact hkx
          have hb0a : b0 = a := sameKey_unique eid d hinv hb0 hamem hkb0 hka
          rw [← hxb0, hb0a, if_pos hka]
        · intro b hb hkb
          have hba : b = a := sameKey_unique eid d hinv hb hamem hkb hka
          rw [hba]
          exact ⟨rfl, rfl⟩
        · intro hfalse
          exact absurd hka (List.any_eq_false.mp hfalse a hamem)

theorem mark_attendance_absent (db : DB) (eid : String) (d : Date)
    (st : AttendanceStatus) (now : Timestamp)
    (hemp : employeeExists db eid = false) :
    mark_attendance db eid d st now = .error 404 := by
  unfold mark_attendance
  rw [if_pos hemp]

theorem serializer_create_absent (db : DB) (eid : String) (d : Date)
    (st : AttendanceStatus) (now : Timestamp)
    (hemp : employeeExists db eid = false) :
    attendance_serializer_create db eid d st now = .error 400 := by
  unfold attendance_serializer_create
  rw [if_pos hemp]

theorem mark_attendance_isOk (db : DB) (eid : String) (d : Date)
    (st : AttendanceStatus) (now : Timestamp)
    (hemp : employeeExists db eid = true) :
    ∃ db' r, mark_attendance db eid d st now = .ok (db', r) := by
  unfold mark_attendance
  rw [if_neg (by simp [hemp])]
  by_cases hkey : db.attendance.any (sameKey eid d) = false
  · rw [if_pos hkey]
    exact ⟨_, _, rfl⟩
  · rw [if_neg hkey]
    have hany : db.attendance.any (sameKey eid d) = true := by
      revert hkey; cases db.attendance.any (sameKey eid d) <;> simp
    obtain ⟨x, hx, hkx⟩ := List.any_eq_true.mp hany
    have hex : ∃ y ∈ update_attendance_rows db.attendance eid d st now,
        sameKey eid d y = true := by
      refine ⟨if sameKey eid d x then { x with status := st, created_at := now }
        else x, ?_, ?_⟩
      · unfold update_attendance_rows
        exact List.mem_map.mpr ⟨x, hx, rfl⟩
      · rw [sameKey_upd_full]; exact hkx
    obtain ⟨a, hfind⟩ :=
      Option.isSome_iff_exists.mp (List.find?_isSome.mpr hex)
    rw [hfind]
    exact ⟨_, _, rfl⟩

theorem serializer_create_isOk (db : DB) (eid : String) (d : Date)
    (st : AttendanceStatus) (now : Timestamp)
    (hemp : employeeExists db eid = true) (hinv : UniquePairs db) :
    ∃ db' r, attendance_serializer_create db eid d st now = .ok (db', r) := by
  unfold attendance_serializer_create
  rw [if_neg (by simp [hemp])]
  rw [if_neg (show ¬ 2 ≤ db.attendance.countP (sameKey eid d) by
        have := countP_sameKey_le_one eid d hinv; omega)]
  cases hfind : db.attendance.find? (sameKey eid d) with
  | none => exact ⟨_, _, rfl⟩
  | some a => exact ⟨_, _, rfl⟩

theorem upsert_equiv_scrub (db : DB) (eid : String) (d : Date)
    (st : AttendanceStatus) (now : Timestamp)
    (hemp : employeeExists db eid = true) (hinv : UniquePairs db) :
    ∃ db1 r1 db2 r2,
      mark_attendance db eid d st now = .ok (db1, r1) ∧
      attendance_serializer_create db eid d st now = .ok (db2, r2) ∧
      db1.scrub = db2.scrub ∧ r1.scrub = r2.scrub := by
  unfold mark_attendance attendance_serializer_create
  rw [if_neg (show ¬ employeeExists db eid = false by simp [hemp])]
  rw [if_neg (show ¬ employeeExists db eid = false by simp [hemp])]
  rw [if_neg (show ¬ 2 ≤ db.attendance.countP (sameKey eid d) by
        have := countP_sameKey_le_one eid d hinv; omega)]
  by_cases hkey : db.attendance.any (sameKey eid d) = false
  · rw [if_pos hkey]
    rw [List.find?_eq_none.mpr (List.any_eq_false.mp hkey)]
    exact ⟨_, _, _, _, rfl, rfl, rfl, rfl⟩
  · rw [if_neg hkey]
    have hany : db.attendance.any (sameKey eid d) = true := by
      revert hkey; cases db.attendance.any (sameKey eid d) <;> simp
    have hcomp : (sameKey eid d ∘ fun b =>
        if sameKey eid d b then { b with status := st, created_at := now }
        else b) = sameKey eid d :=
      funext fun b => sameKey_upd_full eid d st now eid d b
    cases hfind : db.attendance.find? (sameKey eid d) with
    | none =>
      obtain ⟨x, hx, hkx⟩ := List.any_eq_true.mp hany
      exact absurd hkx (List.find?_eq_none.mp hfind x hx)
    | some a =>
      have hka : sameKey eid d a = true := List.find?_some hfind
      have hfind2 : (update_attendance_rows db.attendance eid d st now).find?
          (sameKey eid d)
          = some { a with status := st, created_at := now } := by
        unfold update_attendance_rows
        rw [List.find?_map, hcomp, hfind]
        simp [if_pos hka]
      rw [hfind2]
      refine ⟨_, _, _, _, rfl, rfl, ?_, ?_⟩
      · have hl : (update_attendance_rows db.attendance eid d st now).map
              Attendance.scrub
            = (orm_update_status db.attendance eid d st).map Attendance.scrub := by
          unfold update_attendance_rows orm_update_status
          rw [List.map_map, List.map_map]
          refine List.map_congr_left ?_
          intro b _
          by_cases hb : sameKey eid d b = true <;>
            simp [Function.comp, hb, Attendance.scrub]
        unfold DB.scrub
        rw [hl]
      · rcases (sameKey_iff eid d a).mp hka with ⟨hae, had⟩
        unfold Attendance.scrub
        simp [hae, had]

/-! ### Invariant preservation of the remaining state-changing operations -/

theorem create_employee_attendance (db : DB)
    (eid full_name email department : String) (now : Timestamp) :
    (outcome db (create_employee db eid full_name email department now)).attendance
      = db.attendance := by
  unfold create_employee
  by_cases h1 : (db.employees.any fun e => e.employee_id == eid) = true
  · rw [if_pos h1]; rfl
  · rw [if_neg h1]
    by_cases h2 : (db.employees.any fun e => e.email == email) = true
    · rw [if_pos h2]; rfl
    · rw [if_neg h2]; rfl

theorem delete_employee_uniquePairs (db : DB) (eid : String)
    (hinv : UniquePairs db) :
    UniquePairs (outcomeDel db (delete_employee db eid)) := by
  unfold delete_employee
  by_cases h : employeeExists db eid = false
  · rw [if_pos h]; exact hinv
  · rw [if_neg h]
    exact List.Pairwise.sublist (List.filter_sublist _) hinv

/-! ### The listing endpoint -/

theorem toAttendance_enrich (db : DB) (a : Attendance) :
    (enrich db a).toAttendance = a := rfl

theorem get_attendance_map_toAttendance (db : DB) (employee_id : Option String)
    (dt od sd ed : Option Date) :
    (get_attendance db employee_id dt od sd ed).map AttendanceRow.toAttendance
      = (db.attendance.filter
          (attendance_where employee_id dt od sd ed)).insertionSort
          attendance_order := by
  unfold get_attendance
  rw [List.map_map]
  have hid : AttendanceRow.toAttendance ∘ enrich db = id := funext fun a => rfl
  rw [hid, List.map_id]

theorem attendance_where_iff (employee_id : Option String)
    (dt od sd ed : Option Date) (a : Attendance)
    (hne : employee_id ≠ some "") :
    attendance_where employee_id dt od sd ed a = true ↔
      MatchesCriteria employee_id (specific_date od dt) sd ed a := by
  unfold attendance_where MatchesCriteria
  cases employee_id with
  | none =>
    cases specific_date od dt <;> cases sd <;> cases ed <;>
      simp [Bool.and_eq_true, beq_iff_eq, and_assoc]
  | some s =>
    have hs : ¬ s = "" := fun hcon => hne (by rw [hcon])
    have hsb : (s == "") = false := beq_eq_false_iff_ne.mpr hs
    cases specific_date od dt <;> cases sd <;> cases ed <;>
      simp [Bool.and_eq_true, beq_iff_eq, hsb, and_assoc]

theorem pairwise_row_order (db : DB) {l : List Attendance}
    (h : List.Pairwise attendance_order l) :
    List.Pairwise attendance_row_order (l.map (enrich db)) :=
  h.map (enrich db) (fun _ _ hab => hab)

/-! ### Claims -/

/-- C5: the attendance date validation (identical in both variants) fails
exactly when the submitted date is strictly later than today, and passes,
returning the date unchanged, for today or any earlier date. -/
theorem claim_C5_future_date_validation (v today : Date) :
    ((∃ msg, validate_date v today = .error msg) ↔ today < v) ∧
    (validate_date v today = .ok v ↔ v ≤ today) := by
  constructor
  · constructor
    · rintro ⟨msg, hmsg⟩
      by_contra hnot
      unfold validate_date at hmsg
      rw [if_neg hnot] at hmsg
      exact absurd hmsg (by simp)
    · intro hlt
      refine ⟨"Cannot mark attendance for future dates", ?_⟩
      unfold validate_date
      rw [if_pos hlt]
  · constructor
    · intro hok
      by_contra hnot
      unfold validate_date at hok
      rw [if_pos (Nat.not_le.mp hnot)] at hok
      exact absurd hok (by simp)
    · intro hle
      unfold validate_date
      rw [if_neg (Nat.not_lt.mpr hle)]

/-- C10: in the attendance listing, supplying the `employee_id` filter as
the empty string is the same as not supplying it at all (`if employee_id:`
is false for the empty string), so the listing is not restricted. -/
theorem claim_C10_empty_string_filter (db : DB) (dt od sd ed : Option Date) :
    get_attendance db (some "") dt od sd ed
      = get_attendance db none dt od sd ed := by
  unfold get_attendance
  have hw : attendance_where (some "") dt od sd ed
      = attendance_where none dt od sd ed := by
    funext a
    unfold attendance_where
    congr 1
  rw [hw]

/-- C9: the `date` and `on_date` query parameters are aliases of the same
exact-date filter: either alone restricts the listing to that date, and
when both are supplied `on_date` wins and `date` is ignored
(`specific_date = on_date or date`). -/
theorem claim_C9_date_alias_precedence (db : DB) (eid : Option String)
    (d1 d2 : Date) (sd ed : Option Date) :
    (get_attendance db eid (some d1) none sd ed
       = get_attendance db eid none (some d1) sd ed) ∧
    (get_attendance db eid (some d1) (some d2) sd ed
       = get_attendance db eid none (some d2) sd ed) ∧
    (∀ row ∈ get_attendance db eid (some d1) none sd ed, row.date = d1) := by
  refine ⟨rfl, rfl, ?_⟩
  intro row hrow
  unfold get_attendance at hrow
  obtain ⟨a, ha, hrow_eq⟩ := List.mem_map.mp hrow
  have ha2 : a ∈ db.attendance.filter
      (attendance_where eid (some d1) none sd ed) :=
    (List.mem_insertionSort _).mp ha
  have hw := (List.mem_filter.mp ha2).2
  unfold attendance_where specific_date at hw
  simp only [Bool.and_eq_true] at hw
  have hdt : (a.date == d1) = true := hw.1.1.2
  rw [← hrow_eq]
  exact beq_iff_eq.mp hdt

/-- Splitting a count of attendance rows over the closed status set: every
row is either Present or Absent. -/
theorem countP_status_split (l : List Attendance) (p : Attendance → Bool) :
    l.countP p
      = l.countP (fun a => p a && decide (a.status = .Present))
        + l.countP (fun a => p a && decide (a.status = .Absent)) := by
  induction l with
  | nil => simp
  | cons a t ih =>
    rw [List.countP_cons, List.countP_cons, List.countP_cons]
    cases hst : a.status <;> by_cases hp : p a = true <;>
      simp [hp, hst, ih] <;> omega

/-- C8: the dashboard statistics count all employees, all attendance rows,
and the Present and Absent rows dated today; in the spec's scenario
(3 employees, 2 Present and 1 Absent today, 5 rows on other days) the
response is exactly (3, 8, 2, 1). -/
theorem claim_C8_dashboard_stats (db : DB) (today : Date)
    (h1 : db.employees.length = 3)
    (h2 : db.attendance.countP
        (fun a => a.date == today && decide (a.status = .Present)) = 2)
    (h3 : db.attendance.countP
        (fun a => a.date == today && decide (a.status = .Absent)) = 1)
    (h4 : db.attendance.countP (fun a => !(a.date == today)) = 5) :
    get_dashboard_stats db today = ⟨3, 8, 2, 1⟩ := by
  have hlen := List.length_eq_countP_add_countP
    (fun a : Attendance => a.date == today) db.attendance
  have hneg : db.attendance.countP (fun a => decide ¬(a.date == today) = true)
      = db.attendance.countP (fun a => !(a.date == today)) :=
    List.countP_congr (fun x _ => by cases h : (x.date == today) <;> simp [h])
  have hsplit := countP_status_split db.attendance
    (fun a : Attendance => a.date == today)
  have hlen8 : db.attendance.length = 8 := by
    rw [hlen, hneg, h4, hsplit, h2, h3]
  unfold get_dashboard_stats
  rw [h1, hlen8, h2, h3]

/-- C8 witness: a concrete store realizing the scenario. -/
theorem claim_C8_witness : get_dashboard_stats db_dash 10 = ⟨3, 8, 2, 1⟩ :=
  claim_C8_dashboard_stats db_dash 10 (by decide) (by decide) (by decide)
    (by decide)

/-- Splitting the length of an attendance list over the closed status
set. -/
theorem length_status_split (l : List Attendance) :
    l.length = l.countP (fun a => decide (a.status = .Present))
      + l.countP (fun a => decide (a.status = .Absent)) := by
  induction l with
  | nil => simp
  | cons a t ih =>
    rw [List.length_cons, List.countP_cons, List.countP_cons]
    cases hst : a.status <;> simp [hst, ih] <;> omega

/-- C7: the per-employee summary answers 404 exactly when the employee is
absent; on success it reports the employee's total, Present and Absent
record counts (which sum to the total), and an employee with zero records
gets a successful all-zero summary. -/
theorem claim_C7_employee_summary (db : DB) (eid : String) :
    (employeeExists db eid = false →
        get_employee_attendance_summary db eid = .error 404) ∧
    (employeeExists db eid = true →
        ∃ s, get_employee_attendance_summary db eid = .ok s) ∧
    (∀ s, get_employee_attendance_summary db eid = .ok s →
        s.employee_id = eid ∧
        s.total_days = db.attendance.countP (fun a => a.employee_id == eid) ∧
        s.present_days = db.attendance.countP
          (fun a => a.employee_id == eid && decide (a.status = .Present)) ∧
        s.absent_days = db.attendance.countP
          (fun a => a.employee_id == eid && decide (a.status = .Absent)) ∧
        s.total_days = s.present_days + s.absent_days ∧
        (db.attendance.countP (fun a => a.employee_id == eid) = 0 →
          s.total_days = 0 ∧ s.present_days = 0 ∧ s.absent_days = 0)) := by
  refine ⟨?_, ?_, ?_⟩
  · intro h
    unfold get_employee_attendance_summary
    rw [List.find?_eq_none.mpr (List.any_eq_false.mp h)]
  · intro h
    obtain ⟨e, he, hkey⟩ := List.any_eq_true.mp h
    have hsome : (db.employees.find?
        (fun e => e.employee_id == eid)).isSome = true :=
      List.find?_isSome.mpr ⟨e, he, hkey⟩
    obtain ⟨emp, hemp⟩ := Option.isSome_iff_exists.mp hsome
    unfold get_employee_attendance_summary
    rw [hemp]
    exact ⟨_, rfl⟩
  · intro s hs
    unfold get_employee_attendance_summary at hs
    cases hfind : db.employees.find? (fun e => e.employee_id == eid) with
    | none => rw [hfind] at hs; exact absurd hs (by simp)
    | some emp =>
      rw [hfind] at hs
      simp only [Except.ok.injEq] at hs
      subst hs
      have htot : (db.attendance.filter (fun a => a.employee_id == eid)).length
          = db.attendance.countP (fun a => a.employee_id == eid) :=
        (List.countP_eq_length_filter _ _).symm
      have hpres : (db.attendance.filter
              (fun a => a.employee_id == eid)).countP
            (fun a => decide (a.status = .Present))
          = db.attendance.countP
            (fun a => a.employee_id == eid && decide (a.status = .Present)) := by
        rw [List.countP_filter]
        refine List.countP_congr (fun x _ => ?_)
        cases hx : (x.employee_id == eid) <;>
          cases hy : (decide (x.status = AttendanceStatus.Present)) <;>
            simp [hx, hy]
      have habs : (db.attendance.filter
              (fun a => a.employee_id == eid)).countP
            (fun a => decide (a.status = .Absent))
          = db.attendance.countP
            (fun a => a.employee_id == eid && decide (a.status = .Absent)) := by
        rw [List.countP_filter]
        refine List.countP_congr (fun x _ => ?_)
        cases hx : (x.employee_id == eid) <;>
          cases hy : (decide (x.status = AttendanceStatus.Absent)) <;>
            simp [hx, hy]
      have hps := length_status_split
        (db.attendance.filter (fun a => a.employee_id == eid))
      refine ⟨rfl, htot, hpres, habs, hps, ?_⟩
      intro hzero
      have ht0 : (db.attendance.filter
          (fun a => a.employee_id == eid)).length = 0 := by
        rw [htot]; exact hzero
      refine ⟨ht0, ?_, ?_⟩
      · show (db.attendance.filter (fun a => a.employee_id == eid)).countP
            (fun a => decide (a.status = AttendanceStatus.Present)) = 0
        omega
      · show (db.attendance.filter (fun a => a.employee_id == eid)).countP
            (fun a => decide (a.status = AttendanceStatus.Absent)) = 0
        omega

/-- C7 witness: the summary of a store without the employee errors with
404, and the summary of an employee with no attendance rows is a
successful all-zero report. -/
theorem claim_C7_witness :
    get_employee_attendance_summary emptyDB "E1" = .error 404 ∧
    get_employee_attendance_summary db_one_emp "E1"
      = .ok ⟨"E1", "Ann", 0, 0, 0⟩ ∧
    (AttendanceSummary.mk "E1" "Ann" 0 0 0).total_days = 0 ∧
    (AttendanceSummary.mk "E1" "Ann" 0 0 0).present_days = 0 ∧
    (AttendanceSummary.mk "E1" "Ann" 0 0 0).absent_days = 0 := by
  refine ⟨(claim_C7_employee_summary emptyDB "E1").1 (by decide), rfl, ?_⟩
  exact ((claim_C7_employee_summary db_one_emp "E1").2.2
    ⟨"E1", "Ann", 0, 0, 0⟩ rfl).2.2.2.2.2 (by decide)

/-- C6: deleting an unknown employee answers 404 and leaves the store
untouched (the transaction rolls back); deleting an existing employee
removes, in one atomic returned store, all of that employee's attendance
rows and the employee row, after which a listing filtered by the employee
is empty and the employee is not found.  Employee identities are validated
non-empty on creation, hence the hypothesis. -/
theorem claim_C6_delete_employee (db : DB) (eid : String) (hne : eid ≠ "") :
    (employeeExists db eid = false →
        delete_employee db eid = .error 404 ∧
        outcomeDel db (delete_employee db eid) = db) ∧
    (∀ db', delete_employee db eid = .ok db' →
        db'.attendance
            = db.attendance.filter (fun a => !(a.employee_id == eid)) ∧
        db'.employees
            = db.employees.filter (fun e => !(e.employee_id == eid)) ∧
        get_attendance db' (some eid) none none none none = [] ∧
        get_employee db' eid = .error 404) := by
  constructor
  · intro h
    unfold delete_employee
    rw [if_pos h]
    exact ⟨rfl, rfl⟩
  · intro db' h
    unfold delete_employee at h
    split at h
    · exact absurd h (by simp)
    · simp only [Except.ok.injEq] at h
      subst h
      refine ⟨rfl, rfl, ?_, ?_⟩
      · unfold get_attendance
        dsimp only
        have hfil : (db.attendance.filter
              (fun a => !(a.employee_id == eid))).filter
            (attendance_where (some eid) none none none none) = [] := by
          rw [List.filter_eq_nil_iff]
          intro a ha
          have hbeq : (a.employee_id == eid) = false := by
            have h2 := (List.mem_filter.mp ha).2
            cases hc : (a.employee_id == eid)
            · rfl
            · rw [hc] at h2; simp at h2
          have hne2 : (eid == "") = false := beq_eq_false_iff_ne.mpr hne
          unfold attendance_where
          simp [hbeq, hne2]
        rw [hfil]
        rfl
      · have hnone : (db.employees.filter
            (fun e => !(e.employee_id == eid))).find?
              (fun e => e.employee_id == eid) = none := by
          rw [List.find?_eq_none]
          intro e he
          have h2 := (List.mem_filter.mp he).2
          cases hc : (e.employee_id == eid)
          · simp [hc]
          · rw [hc] at h2; simp at h2
        unfold get_employee
        dsimp only
        rw [hnone]

/-- C6 witness: at the two concrete stores the 404 branch and the
successful cascade branch of the theorem are realized. -/
theorem claim_C6_witness :
    (delete_employee emptyDB "E1" = .error 404 ∧
     outcomeDel emptyDB (delete_employee emptyDB "E1") = emptyDB) ∧
    (get_attendance (DB.mk [] [] 3) (some "E1") none none none none = [] ∧
     get_employee (DB.mk [] [] 3) "E1" = .error 404) := by
  constructor
  · exact (claim_C6_delete_employee emptyDB "E1" (by decide)).1 rfl
  · have h := (claim_C6_delete_employee db_att "E1" (by decide)).2
      (DB.mk [] [] 3) rfl
    exact ⟨h.2.2.1, h.2.2.2⟩

/-- C4: the attendance listing returns exactly the stored records that
satisfy the conjunction of the supplied filters (exact employee, exact
date via the effective specific date, inclusive range bounds); with no
criterion it returns every record; and the rows come ordered by date
descending, then employee id ascending. -/
theorem claim_C4_attendance_listing (db : DB) (employee_id : Option String)
    (dt od sd ed : Option Date) (hne : employee_id ≠ some "") :
    (∀ a : Attendance,
        a ∈ (get_attendance db employee_id dt od sd ed).map
              AttendanceRow.toAttendance
          ↔ a ∈ db.attendance ∧
              MatchesCriteria employee_id (specific_date od dt) sd ed a) ∧
    ((get_attendance db employee_id dt od sd ed).map
        AttendanceRow.toAttendance).Perm
      (db.attendance.filter (attendance_where employee_id dt od sd ed)) ∧
    (employee_id = none → dt = none → od = none → sd = none → ed = none →
        ((get_attendance db employee_id dt od sd ed).map
            AttendanceRow.toAttendance).Perm db.attendance) ∧
    List.Pairwise attendance_row_order
      (get_attendance db employee_id dt od sd ed) := by
  refine ⟨?_, ?_, ?_, ?_⟩
  · intro a
    rw [get_attendance_map_toAttendance, List.mem_insertionSort,
      List.mem_filter]
    exact and_congr_right
      (fun _ => attendance_where_iff employee_id dt od sd ed a hne)
  · rw [get_attendance_map_toAttendance]
    exact List.perm_insertionSort _ _
  · intro h1 h2 h3 h4 h5
    subst h1; subst h2; subst h3; subst h4; subst h5
    rw [get_attendance_map_toAttendance]
    have hall : db.attendance.filter
        (attendance_where none none none none none) = db.attendance :=
      List.filter_eq_self.mpr (fun a _ => rfl)
    rw [hall]
    exact List.perm_insertionSort _ _
  · unfold get_attendance
    exact pairwise_row_order db (List.sorted_insertionSort _ _)

/-- C4 witness: the listing of a concrete store restricted to dates at
least 6 is ordered and consists exactly of the single matching record. -/
theorem claim_C4_witness :
    ((⟨2, "E1", 6, AttendanceStatus.Absent, 0⟩ : Attendance)
        ∈ (get_attendance db_att none none none (some 6) none).map
            AttendanceRow.toAttendance
      ↔ (⟨2, "E1", 6, AttendanceStatus.Absent, 0⟩ : Attendance)
            ∈ db_att.attendance ∧
          MatchesCriteria none (specific_date none none) (some 6) none
            ⟨2, "E1", 6, AttendanceStatus.Absent, 0⟩) ∧
    List.Pairwise attendance_row_order
      (get_attendance db_att none none none none none) := by
  constructor
  · exact (claim_C4_attendance_listing db_att none none none (some 6) none
      (by simp)).1 ⟨2, "E1", 6, AttendanceStatus.Absent, 0⟩
  · exact (claim_C4_attendance_listing db_att none none none none none
      (by simp)).2.2.2

/-- C2: every store reachable from the fresh schema by any sequence of the
API operations (employee create, employee delete, and the attendance
upsert of either variant; the read endpoints are pure and do not change
state) satisfies the uniqueness invariant: at most one attendance record
per (employee_id, date) pair. -/
theorem claim_C2_uniqueness_invariant (db : DB) (h : Reachable db) :
    UniquePairs db := by
  induction h with
  | init => exact List.Pairwise.nil
  | create db0 eid full_name email department now _ ih =>
    unfold UniquePairs at ih ⊢
    rw [create_employee_attendance]
    exact ih
  | upsert db0 eid d st now _ ih =>
    cases hres : mark_attendance db0 eid d st now with
    | error e => exact ih
    | ok p =>
      obtain ⟨db', r⟩ := p
      exact (mark_attendance_ok db0 eid d st now db' r ih hres).2.2.2.2.2.2.2.2
  | orm_upsert db0 eid d st now _ ih =>
    cases hres : attendance_serializer_create db0 eid d st now with
    | error e => exact ih
    | ok p =>
      obtain ⟨db', r⟩ := p
      exact (serializer_create_ok db0 eid d st now db' r ih hres).2.2.2.2.2.2.2.2
  | delete db0 eid _ ih =>
    exact delete_employee_uniquePairs db0 eid ih

/-- C2 witness: the invariant at a store reached by one employee creation
followed by one attendance upsert. -/
theorem claim_C2_witness :
    UniquePairs (outcome
      (outcome emptyDB (create_employee emptyDB "E1" "Ann" "ann@x.com" "Eng" 0))
      (mark_attendance
        (outcome emptyDB (create_employee emptyDB "E1" "Ann" "ann@x.com" "Eng" 0))
        "E1" 5 .Present 10)) :=
  claim_C2_uniqueness_invariant _
    (Reachable.upsert _ "E1" 5 .Present 10
      (Reachable.create emptyDB "E1" "Ann" "ann@x.com" "Eng" 0 Reachable.init))

/-- C3 (amended): on the attendance upsert the two variants agree whenever
the employee exists and the store satisfies the uniqueness invariant, up
to the stored `created_at` values — same branch taken, same surrogate id,
same (employee, date, status) in the response and in the store; they
differ in that the raw-SQL variant refreshes `created_at` on update while
the ORM variant does not, and on an unknown employee they answer different
error statuses (404 raw SQL, 400 ORM). -/
theorem claim_C3_upsert_equivalence (db : DB) (eid : String) (d : Date)
    (st : AttendanceStatus) (now : Timestamp) (hinv : UniquePairs db) :
    (employeeExists db eid = false →
        mark_attendance db eid d st now = .error 404 ∧
        attendance_serializer_create db eid d st now = .error 400) ∧
    (employeeExists db eid = true →
        ∃ db1 r1 db2 r2,
          mark_attendance db eid d st now = .ok (db1, r1) ∧
          attendance_serializer_create db eid d st now = .ok (db2, r2) ∧
          db1.scrub = db2.scrub ∧ r1.scrub = r2.scrub) := by
  constructor
  · intro h
    exact ⟨mark_attendance_absent db eid d st now h,
           serializer_create_absent db eid d st now h⟩
  · intro h
    exact upsert_equiv_scrub db eid d st now h hinv

/-- C3 counterexample: the two implementations do not produce the same
responses — for the same upsert request on the same (empty) store, the
raw-SQL variant answers 404 and the ORM variant answers 400, a divergence
independent of any clock value. -/
theorem claim_C3_counterexample :
    mark_attendance emptyDB "E1" 5 .Present 10 = .error 404 ∧
    attendance_serializer_create emptyDB "E1" 5 .Present 10 = .error 400 ∧
    (Except.error 404 : Except Nat (DB × Attendance)) ≠ .error 400 := by
  refine ⟨rfl, rfl, ?_⟩
  intro hcon
  injection hcon with hnum
  exact absurd hnum (by decide)

/-- C3 witness: the amended equivalence at concrete stores — the error
pair on the empty store, and the success pair on a one-employee store. -/
theorem claim_C3_witness :
    (mark_attendance emptyDB "E1" 5 .Present 10 = .error 404 ∧
     attendance_serializer_create emptyDB "E1" 5 .Present 10 = .error 400) ∧
    (∃ db1 r1 db2 r2,
        mark_attendance db_one_emp "E1" 5 .Present 10 = .ok (db1, r1) ∧
        attendance_serializer_create db_one_emp "E1" 5 .Present 10
          = .ok (db2, r2) ∧
        db1.scrub = db2.scrub ∧ r1.scrub = r2.scrub) := by
  constructor
  · exact (claim_C3_upsert_equivalence emptyDB "E1" 5 .Present 10
      List.Pairwise.nil).1 rfl
  · exact (claim_C3_upsert_equivalence db_one_emp "E1" 5 .Present 10
      List.Pairwise.nil).2 rfl

/-- C1 (amended): upserting attendance twice for the same employee and
non-future date, with different statuses, leaves exactly one stored record
for the pair in either variant, with the second call's status and the
first call's surrogate id; the stored `created_at` equals the second
call's timestamp in the raw-SQL variant, while in the ORM variant the
second call leaves `created_at` unchanged from the first call's record
(`auto_now_add` writes it only at creation). -/
theorem claim_C1_upsert_twice (db : DB) (eid : String) (d today : Date)
    (s1 s2 : AttendanceStatus) (t1 t2 : Timestamp)
    (db1 db2 ddb1 ddb2 : DB) (a1 a2 b1 b2 : Attendance)
    (hdate : d ≤ today)
    (hinv : UniquePairs db)
    (h1 : mark_attendance db eid d s1 t1 = .ok (db1, a1))
    (h2 : mark_attendance db1 eid d s2 t2 = .ok (db2, a2))
    (g1 : attendance_serializer_create db eid d s1 t1 = .ok (ddb1, b1))
    (g2 : attendance_serializer_create ddb1 eid d s2 t2 = .ok (ddb2, b2)) :
    (db2.attendance.countP (sameKey eid d) = 1 ∧
      (∀ a ∈ db2.attendance, sameKey eid d a = true →
        a.status = s2 ∧ a.id = a1.id ∧ a.created_at = t2) ∧
      a2.id = a1.id ∧ a2.status = s2 ∧ a2.created_at = t2) ∧
    (ddb2.attendance.countP (sameKey eid d) = 1 ∧
      (∀ a ∈ ddb2.attendance, sameKey eid d a = true →
        a.status = s2 ∧ a.id = b1.id ∧ a.created_at = b1.created_at) ∧
      b2.id = b1.id ∧ b2.status = s2 ∧ b2.created_at = b1.created_at) := by
  obtain ⟨he1, ha1e, ha1d, ha1s, ha1c, hcnt1, hsto1, hold1, hinv1⟩ :=
    mark_attendance_ok db eid d s1 t1 db1 a1 hinv h1
  obtain ⟨he2, ha2e, ha2d, ha2s, ha2c, hcnt2, hsto2, hold2, hinv2⟩ :=
    mark_attendance_ok db1 eid d s2 t2 db2 a2 hinv1 h2
  obtain ⟨x1, hx1mem, hx1key⟩ := List.countP_pos_iff.mp
    (show 0 < db1.attendance.countP (sameKey eid d) by omega)
  have hx1 : x1 = a1 := hsto1 x1 hx1mem hx1key
  have ha1mem : a1 ∈ db1.attendance := hx1 ▸ hx1mem
  have ha1key : sameKey eid d a1 = true := hx1 ▸ hx1key
  have hid2 : a2.id = a1.id := hold2 a1 ha1mem ha1key
  obtain ⟨ge1, hb1e, hb1d, hb1s, gcnt1, gsto1, gold1, gany1, ginv1⟩ :=
    serializer_create_ok db eid d s1 t1 ddb1 b1 hinv g1
  obtain ⟨ge2, hb2e, hb2d, hb2s, gcnt2, gsto2, gold2, gany2, ginv2⟩ :=
    serializer_create_ok ddb1 eid d s2 t2 ddb2 b2 ginv1 g2
  obtain ⟨y1, hy1mem, hy1key⟩ := List.countP_pos_iff.mp
    (show 0 < ddb1.attendance.countP (sameKey eid d) by omega)
  have hy1 : y1 = b1 := gsto1 y1 hy1mem hy1key
  have hb1mem : b1 ∈ ddb1.attendance := hy1 ▸ hy1mem
  have hb1key : sameKey eid d b1 = true := hy1 ▸ hy1key
  obtain ⟨gid2, gca2⟩ := gold2 b1 hb1mem hb1key
  constructor
  · refine ⟨hcnt2, ?_, hid2, ha2s, ha2c⟩
    intro a ha hk
    have hae := hsto2 a ha hk
    subst hae
    exact ⟨ha2s, hid2, ha2c⟩
  · refine ⟨gcnt2, ?_, gid2, hb2s, gca2⟩
    intro a ha hk
    have hae := gsto2 a ha hk
    subst hae
    exact ⟨hb2s, gid2, gca2⟩

/-- C1 counterexample: in the ORM variant, after upserting (E1, day 5) at
time 10 and again, with a different status, at time 20, the surviving
record's `created_at` is still 10 — not the second call's timestamp, as
the claim requires of the upsert. -/
theorem claim_C1_counterexample :
    ormTwice.attendance = [⟨1, "E1", 5, AttendanceStatus.Absent, 10⟩] ∧
    (Attendance.mk 1 "E1" 5 AttendanceStatus.Absent 10).created_at ≠ 20 :=
  ⟨rfl, by decide⟩

/-- C1 witness: the amended theorem instantiated on a concrete
one-employee store: after two upserts (Present at 10, then Absent at 20)
the raw-SQL store holds exactly one matching row, the response ids of the
two calls agree, and the ORM response's `created_at` still equals the
first call's. -/
theorem claim_C1_witness :
    (DB.mk [⟨"E1", "Ann", "ann@x.com", "Eng", 0⟩]
        [⟨1, "E1", 5, AttendanceStatus.Absent, 20⟩] 2).attendance.countP
      (sameKey "E1" 5) = 1 ∧
    (Attendance.mk 1 "E1" 5 AttendanceStatus.Absent 20).id
      = (Attendance.mk 1 "E1" 5 AttendanceStatus.Present 10).id ∧
    (Attendance.mk 1 "E1" 5 AttendanceStatus.Absent 10).created_at
      = (Attendance.mk 1 "E1" 5 AttendanceStatus.Present 10).created_at := by
  have h := claim_C1_upsert_twice db_one_emp "E1" 5 5 .Present .Absent 10 20
    (DB.mk [⟨"E1", "Ann", "ann@x.com", "Eng", 0⟩]
      [⟨1, "E1", 5, AttendanceStatus.Present, 10⟩] 2)
    (DB.mk [⟨"E1", "Ann", "ann@x.com", "Eng", 0⟩]
      [⟨1, "E1", 5, AttendanceStatus.Absent, 20⟩] 2)
    (DB.mk [⟨"E1", "Ann", "ann@x.com", "Eng", 0⟩]
      [⟨1, "E1", 5, AttendanceStatus.Present, 10⟩] 2)
    (DB.mk [⟨"E1", "Ann", "ann@x.com", "Eng", 0⟩]
      [⟨1, "E1", 5, AttendanceStatus.Absent, 10⟩] 2)
    ⟨1, "E1", 5, .Present, 10⟩ ⟨1, "E1", 5, .Absent, 20⟩
    ⟨1, "E1", 5, .Present, 10⟩ ⟨1, "E1", 5, .Absent, 10⟩
    (by decide) List.Pairwise.nil rfl rfl rfl rfl
  exact ⟨h.1.1, h.1.2.2.1, h.2.2.2.2.2⟩

/-- C9 witness: on a concrete store, filtering by `date` alone equals
filtering by `on_date` alone, and a concrete returned row carries the
filtered date. -/
theorem claim_C9_witness :
    (get_attendance db_att none (some 6) none none none
        = get_attendance db_att none none (some 6) none none) ∧
    (AttendanceRow.mk 2 "E1" 6 AttendanceStatus.Absent 0
        (some "Ann") (some "Eng")).date = 6 := by
  refine ⟨(claim_C9_date_alias_precedence db_att none 6 7 none none).1, ?_⟩
  exact (claim_C9_date_alias_precedence db_att none 6 7 none none).2.2
    ⟨2, "E1", 6, AttendanceStatus.Absent, 0, some "Ann", some "Eng"⟩
    (by decide)
